import Mathlib

/-!
Verification development for the gfts repository: a sandboxed git/file-system
operation server (`GftsServer`, src/unnamed/part_005) driven by a
model-dispatch loop (`runGenerativeGitFlow`, src/app/src/commands/git.ts),
with an MCP client layer (src/app/src/mcp/client.ts).

Paths are modelled in the POSIX form Node's `path` module uses: an absolute
path is a list of components (no `.`, `..` or empty components), rendered as a
slash-separated string.  File-system state is an association list from
absolute paths to entries.  Each Lean definition mirrors one function of the
TypeScript source; the source file and lines are named in its doc comment.
-/

/-- An absolute, normalized path: its components, e.g. `/tmp/proj` is
`["tmp", "proj"]` and the filesystem root `/` is `[]`. -/
abbrev FsPath := List String

/-- Splits a list of characters on a separator (helper for `splitPath`). -/
def splitChars (sep : Char) : List Char → List Char → List (List Char)
  | acc, [] => [acc.reverse]
  | acc, c :: cs =>
    if c = sep then acc.reverse :: splitChars sep [] cs
    else splitChars sep (c :: acc) cs

/-- The slash-separated components of a path string, empty segments dropped
(so `"a//b"` gives `["a", "b"]`); `.` and `..` segments are kept for
`normSegments` to interpret. -/
def splitPath (s : String) : List String :=
  ((splitChars '/' [] s.data).filter (· ≠ [])).map (fun cs => String.mk cs)

/-- One step of path normalization: `.` is dropped, `..` pops the last
component (clamping at the root, as `path.resolve` does for absolute paths),
anything else is appended. -/
def normStep (acc : List String) (comp : String) : List String :=
  if comp = "." then acc
  else if comp = ".." then acc.dropLast
  else acc ++ [comp]

/-- Normalizes a component sequence into an absolute path. -/
def normSegments (comps : List String) : FsPath :=
  comps.foldl normStep []

/-- Whether a path string is absolute (starts with a slash), as
`path.posix.isAbsolute` / the `charAt(0) === "/"` test inside `resolve`. -/
def isAbsolutePath (s : String) : Bool :=
  match s.data with
  | '/' :: _ => true
  | _ => false

/-- Node's `path.resolve(base, p)` for an already-normalized absolute `base`:
if `p` is absolute it is normalized on its own, otherwise it is joined to
`base` and normalized (`..` pops into `base`). -/
def resolvePath (base : FsPath) (p : String) : FsPath :=
  normSegments ((if isAbsolutePath p then [] else base) ++ splitPath p)

/-- The characters of the rendered absolute path (helper for `renderAbs`). -/
def renderChars : FsPath → List Char
  | [] => []
  | comp :: rest => '/' :: comp.data ++ renderChars rest

/-- The string Node renders an absolute path as: `/` for the root, otherwise
slash-prefixed components (`["tmp", "proj"]` is `"/tmp/proj"`). -/
def renderAbs (p : FsPath) : String :=
  if p = [] then "/" else String.mk (renderChars p)

/-- JavaScript's `String.prototype.startsWith`. -/
def strStartsWith (s pre : String) : Bool :=
  pre.data.isPrefixOf s.data

/-- Node's `path.posix.dirname` for ordinary slash-separated inputs: drop the
final component; an exhausted relative path gives `"."`, an exhausted absolute
path gives `"/"` (so `dirname ".."` is `"."`, `dirname "../x"` is `".."`). -/
def dirname (s : String) : String :=
  let comps := (splitPath s).dropLast
  if isAbsolutePath s then
    if comps = [] then "/" else String.mk (renderChars comps)
  else
    if comps = [] then "." else String.intercalate "/" comps

/-- Node's `path.posix.basename`: the final non-empty component, `""` when
there is none. -/
def basename (s : String) : String :=
  ((splitPath s).getLast?).getD ""

/-- Node's `path.join(base, name)` for an absolute `base`: concatenate and
normalize, so a `name` of `".."` pops out of `base`. -/
def joinAbs (base : FsPath) (name : String) : FsPath :=
  normSegments (base ++ splitPath name)

/-- The spec's containment relation (§4.1): the candidate's normalized
absolute form is equal to or a descendant of WorkingRoot, i.e. WorkingRoot's
components are a prefix of the candidate's. -/
def specWithinRoot (wd p : FsPath) : Bool :=
  wd.isPrefixOf p

/-- GftsServer.getSafePath (src/unnamed/part_005 lines 19-28, identical in
src/unnamed/part_004 lines 18-28): resolve the candidate against the working
directory, then accept iff the resolved string starts with the working
directory string (`targetPath.startsWith(this.workingDirectory)`); otherwise
throw the access-denied error. -/
def getSafePath (wd : FsPath) (targetPathStr : String) : Except String FsPath :=
  let targetPath := resolvePath wd targetPathStr
  if strStartsWith (renderAbs targetPath) (renderAbs wd) then
    Except.ok targetPath
  else
    Except.error ("Path access denied: '" ++ targetPathStr ++
      "' is outside the project directory.")

/-- A file-system entry: a regular file with its text content, or a
directory. -/
inductive FsEntry
  | file (content : String)
  | dir
deriving DecidableEq

/-- File-system state: an association list from absolute paths to entries
(first binding wins).  The root `[]` always exists as a directory and is not
stored. -/
abbrev FileSystem := List (FsPath × FsEntry)

/-- Looks a path up in the file-system state. -/
def fsLookup : FileSystem → FsPath → Option FsEntry
  | [], _ => none
  | (q, e) :: rest, p => if q = p then some e else fsLookup rest p

/-- Removes any binding for a path. -/
def fsRemove : FileSystem → FsPath → FileSystem
  | [], _ => []
  | (q, e) :: rest, p => if q = p then fsRemove rest p else (q, e) :: fsRemove rest p

/-- Sets the entry at a path, replacing any previous binding. -/
def fsSet (fs : FileSystem) (p : FsPath) (e : FsEntry) : FileSystem :=
  (p, e) :: fsRemove fs p

/-- fs.statSync(p).isFile(): the path is bound to a regular file. -/
def isFileB (fs : FileSystem) (p : FsPath) : Bool :=
  match fsLookup fs p with
  | some (FsEntry.file _) => true
  | _ => false

/-- fs.statSync(p).isDirectory(): the root, or a path bound to a
directory. -/
def isDirB (fs : FileSystem) (p : FsPath) : Bool :=
  p = [] || match fsLookup fs p with
    | some FsEntry.dir => true
    | _ => false

/-- fs.existsSync(p). -/
def existsSyncB (fs : FileSystem) (p : FsPath) : Bool :=
  p = [] || (fsLookup fs p).isSome

/-- fs.mkdirSync(base ++ rest, { recursive: true }), walking the component
chain: an existing directory is fine, an existing file on the chain is an
error, a missing component is created. -/
def mkdirRec (fs : FileSystem) (base : FsPath) : List String → Except String FileSystem
  | [] => Except.ok fs
  | c :: cs =>
    match fsLookup fs (base ++ [c]) with
    | some (FsEntry.file _) => Except.error "ENOTDIR: not a directory, mkdir"
    | some FsEntry.dir => mkdirRec fs (base ++ [c]) cs
    | none => mkdirRec (fsSet fs (base ++ [c]) FsEntry.dir) (base ++ [c]) cs

/-- fs.mkdirSync(p, { recursive: true }) from the root. -/
def mkdirRecursive (fs : FileSystem) (p : FsPath) : Except String FileSystem :=
  mkdirRec fs [] p

/-- fs.writeFileSync(p, content): fails on a directory target or a missing
parent directory, otherwise (over)writes the file. -/
def writeFileSync (fs : FileSystem) (p : FsPath) (content : String) : Except String FileSystem :=
  if isDirB fs p then Except.error "EISDIR: illegal operation on a directory, open"
  else if !(isDirB fs p.dropLast) then Except.error "ENOENT: no such file or directory, open"
  else Except.ok (fsSet fs p (FsEntry.file content))

/-- fs.appendFileSync(p, content): like `writeFileSync` but appends to an
existing file's content. -/
def appendFileSync (fs : FileSystem) (p : FsPath) (content : String) : Except String FileSystem :=
  if isDirB fs p then Except.error "EISDIR: illegal operation on a directory, open"
  else if !(isDirB fs p.dropLast) then Except.error "ENOENT: no such file or directory, open"
  else
    match fsLookup fs p with
    | some (FsEntry.file old) => Except.ok (fsSet fs p (FsEntry.file (old ++ content)))
    | _ => Except.ok (fsSet fs p (FsEntry.file content))

/-- fs.readFileSync(p, "utf-8"). -/
def readFileSyncE (fs : FileSystem) (p : FsPath) : Except String String :=
  match fsLookup fs p with
  | some (FsEntry.file c) => Except.ok c
  | some FsEntry.dir => Except.error "EISDIR: illegal operation on a directory, read"
  | none => Except.error "ENOENT: no such file or directory, open"

/-- fs.renameSync(src, dst): the source must exist, the destination's parent
must be a directory, and the destination must not be an existing
directory. -/
def renameSync (fs : FileSystem) (src dst : FsPath) : Except String FileSystem :=
  match fsLookup fs src with
  | none => Except.error "ENOENT: no such file or directory, rename"
  | some e =>
    if !(isDirB fs dst.dropLast) then
      Except.error "ENOENT: no such file or directory, rename"
    else if isDirB fs dst then
      Except.error "EISDIR: illegal operation on a directory, rename"
    else Except.ok (fsSet (fsRemove fs src) dst e)

/-- Whether an Except value is a success. -/
def exceptIsOk {ε α : Type} : Except ε α → Bool
  | Except.ok _ => true
  | Except.error _ => false

namespace GftsServer

/-- GftsServer.writeFile (src/unnamed/part_005 lines 102-113): resolve through
getSafePath, create the parent directory chain (`path.dirname(safePath)` of an
absolute normalized path is its `dropLast`), write, and report; any thrown
error is caught and rendered into the returned message, with the file-system
effects made so far kept. -/
def writeFile (wd : FsPath) (fs : FileSystem) (filePath content : String) :
    FileSystem × String :=
  match getSafePath wd filePath with
  | Except.error e => (fs, "Error writing to file '" ++ filePath ++ "': " ++ e)
  | Except.ok safePath =>
    match mkdirRecursive fs safePath.dropLast with
    | Except.error e => (fs, "Error writing to file '" ++ filePath ++ "': " ++ e)
    | Except.ok fs1 =>
      match writeFileSync fs1 safePath content with
      | Except.error e => (fs1, "Error writing to file '" ++ filePath ++ "': " ++ e)
      | Except.ok fs2 => (fs2, "Successfully wrote to '" ++ filePath ++ "'.")

/-- GftsServer.appendFile (src/unnamed/part_005 lines 115-126). -/
def appendFile (wd : FsPath) (fs : FileSystem) (filePath content : String) :
    FileSystem × String :=
  match getSafePath wd filePath with
  | Except.error e => (fs, "Error appending to file '" ++ filePath ++ "': " ++ e)
  | Except.ok safePath =>
    match mkdirRecursive fs safePath.dropLast with
    | Except.error e => (fs, "Error appending to file '" ++ filePath ++ "': " ++ e)
    | Except.ok fs1 =>
      match appendFileSync fs1 safePath content with
      | Except.error e => (fs1, "Error appending to file '" ++ filePath ++ "': " ++ e)
      | Except.ok fs2 => (fs2, "Successfully appended to '" ++ filePath ++ "'.")

/-- GftsServer.readFile (src/unnamed/part_005 lines 88-100): after
getSafePath, an existsSync/statSync-isFile guard, then readFileSync. -/
def readFile (wd : FsPath) (fs : FileSystem) (filePath : String) : String :=
  match getSafePath wd filePath with
  | Except.error e => "Error reading file '" ++ filePath ++ "': " ++ e
  | Except.ok safePath =>
    if !(existsSyncB fs safePath) || !(isFileB fs safePath) then
      "Error: Path is not a file or does not exist: '" ++ filePath ++ "'"
    else
      match readFileSyncE fs safePath with
      | Except.ok c => c
      | Except.error e => "Error reading file '" ++ filePath ++ "': " ++ e

/-- GftsServer.moveFile (src/unnamed/part_005 lines 128-144, identical in
src/unnamed/part_004 lines 81-95): the source and the destination's
`path.dirname` go through getSafePath; the final destination is
`path.join(safeDestParent, path.basename(destination))`, then renameSync. -/
def moveFile (wd : FsPath) (fs : FileSystem) (source destination : String) :
    FileSystem × String :=
  match getSafePath wd source with
  | Except.error e =>
    (fs, "Error moving '" ++ source ++ "' to '" ++ destination ++ "': " ++ e)
  | Except.ok safeSource =>
    match getSafePath wd (dirname destination) with
    | Except.error e =>
      (fs, "Error moving '" ++ source ++ "' to '" ++ destination ++ "': " ++ e)
    | Except.ok safeDestParent =>
      let safeDestination := joinAbs safeDestParent (basename destination)
      match renameSync fs safeSource safeDestination with
      | Except.error e =>
        (fs, "Error moving '" ++ source ++ "' to '" ++ destination ++ "': " ++ e)
      | Except.ok fs2 =>
        (fs2, "Successfully moved '" ++ source ++ "' to '" ++ destination ++ "'.")

/-- GftsServer.deleteFile (src/unnamed/part_005 lines 146-159). -/
def deleteFile (wd : FsPath) (fs : FileSystem) (filePath : String) :
    FileSystem × String :=
  match getSafePath wd filePath with
  | Except.error e => (fs, "Error deleting file '" ++ filePath ++ "': " ++ e)
  | Except.ok safePath =>
    if !(existsSyncB fs safePath) || !(isFileB fs safePath) then
      (fs, "Error: Path is not a file or does not exist: '" ++ filePath ++ "'")
    else
      (fsRemove fs safePath, "Successfully deleted file '" ++ filePath ++ "'.")

/-- GftsServer.createDirectory (src/unnamed/part_005 lines 161-171). -/
def createDirectory (wd : FsPath) (fs : FileSystem) (dirPath : String) :
    FileSystem × String :=
  match getSafePath wd dirPath with
  | Except.error e => (fs, "Error creating directory '" ++ dirPath ++ "': " ++ e)
  | Except.ok safePath =>
    match mkdirRecursive fs safePath with
    | Except.error e => (fs, "Error creating directory '" ++ dirPath ++ "': " ++ e)
    | Except.ok fs1 => (fs1, "Successfully created directory '" ++ dirPath ++ "'.")

/-- GftsServer.deleteDirectory (src/unnamed/part_005 lines 173-186):
rmSync(p, { recursive: true }) removes the directory and everything below
it. -/
def deleteDirectory (wd : FsPath) (fs : FileSystem) (dirPath : String) :
    FileSystem × String :=
  match getSafePath wd dirPath with
  | Except.error e => (fs, "Error deleting directory '" ++ dirPath ++ "': " ++ e)
  | Except.ok safePath =>
    if !(existsSyncB fs safePath) || !(isDirB fs safePath) then
      (fs, "Error: Path is not a directory or does not exist: '" ++ dirPath ++ "'")
    else
      (fs.filter (fun qe => !(safePath.isPrefixOf qe.1)),
        "Successfully deleted directory '" ++ dirPath ++ "' and all its contents.")

end GftsServer

/-! ### Timeout wrapper

`GftsServer.wrapWithTimeout` (src/unnamed/part_005 lines 30-48) takes a
*synchronous* `operation: () => T` and races it against a `setTimeout`
rejection inside a Promise executor.  Node runs JavaScript on a single
thread: the executor calls `operation()` synchronously, so a queued timer
callback can only run after the executor returns, and the `clearTimeout`
executed on both the return and the throw path cancels the timer even when
its deadline already passed while the operation was running.  The model makes
that scheduling explicit. -/

/-- How a synchronous JavaScript call can behave: return a value, throw, or
never return (e.g. a hung `execSync`). -/
inductive SyncOutcome (α : Type)
  | completes (result : Except String α)
  | divergesForever

/-- How the promise built by `wrapWithTimeout` can settle. -/
inductive WrapResult (α : Type)
  | resolvedVal (a : α)
  | rejectedErr (msg : String)
  | timedOutAfter (ms : Nat)
  | neverSettles

/-- Whether `clearTimeout` has run by the time the event loop could first
dequeue the timer callback: on both completion paths it has (lines 41 and
44); if the operation never returns the stack never unwinds and the event
loop is never reached. -/
def timerCleared {α : Type} (op : SyncOutcome α) : Bool :=
  match op with
  | SyncOutcome.completes _ => true
  | SyncOutcome.divergesForever => false

/-- Whether the `setTimeout` rejection callback (line 35-37) ever runs: only
once the synchronous executor has returned, and only if the timer was not
cleared before the event loop dequeues it. -/
def timeoutCallbackRuns {α : Type} (op : SyncOutcome α) : Bool :=
  match op with
  | SyncOutcome.completes _ => !(timerCleared op)
  | SyncOutcome.divergesForever => false

/-- GftsServer.wrapWithTimeout (src/unnamed/part_005 lines 30-48) under
Node's single-threaded semantics: the executor settles the promise with the
operation's own result or exception; the timeout rejection would only apply
if its callback ran before the promise settled. -/
def wrapWithTimeout {α : Type} (op : SyncOutcome α) (timeoutMs : Nat) : WrapResult α :=
  match op with
  | SyncOutcome.completes (Except.ok v) => WrapResult.resolvedVal v
  | SyncOutcome.completes (Except.error e) => WrapResult.rejectedErr e
  | SyncOutcome.divergesForever =>
    if timeoutCallbackRuns (SyncOutcome.divergesForever : SyncOutcome α) then
      WrapResult.timedOutAfter timeoutMs
    else
      WrapResult.neverSettles

/-- GftsServer.DEFAULT_TIMEOUT (src/unnamed/part_005 line 12). -/
def DEFAULT_TIMEOUT : Nat := 120000

/-! ### Dispatch loop

`runGenerativeGitFlow` (src/app/src/commands/git.ts lines 183-303, identical
in src/unnamed/part_001) drives the session: while the completion-service
response carries a function call, it builds tool arguments, executes (or, in
dry-run mode, skips) the tool, and asks the service for the next response.
The completion service is modelled as an oracle stream of responses indexed
by turn. -/

/-- A function call found in a completion-service response
(`funcCall.name`, `funcCall.args`). -/
structure FunctionCall where
  name : String
  args : List (String × String)
deriving DecidableEq

/-- A completion-service response: an optional function call in its first
part, and its text. -/
structure ModelResponse where
  functionCall : Option FunctionCall
  text : String
deriving DecidableEq

/-- Looks a named argument up in an argument mapping (first binding wins, as
in a JavaScript object). -/
def getArg (args : List (String × String)) (key : String) : Option String :=
  match args.find? (fun kv => kv.1 == key) with
  | some kv => some kv.2
  | none => none

/-- Drops every binding of a key from an argument mapping (helper for
representing a JavaScript object spread whose last write wins). -/
def removeKey : List (String × String) → String → List (String × String)
  | [], _ => []
  | kv :: rest, k => if kv.1 = k then removeKey rest k else kv :: removeKey rest k

/-- git.ts line 235: `{ ...funcCall.args, working_directory: process.cwd() }`
— the spread keeps every model-supplied argument except that
`working_directory` is overwritten with the session's cwd. -/
def mkToolArgs (modelArgs : List (String × String)) (cwd : String) :
    List (String × String) :=
  removeKey modelArgs "working_directory" ++ [("working_directory", cwd)]

/-- McpManager.executeTool (src/app/src/mcp/client.ts lines 262-270):
`{ ...toolArgs, working_directory: toolArgs.working_directory || process.cwd() }`
— the supplied value is kept unless it is falsy (for strings: empty). -/
def executeToolArgs (toolArgs : List (String × String)) (cwd : String) :
    List (String × String) :=
  let wdValue :=
    match getArg toolArgs "working_directory" with
    | some v => if v = "" then cwd else v
    | none => cwd
  removeKey toolArgs "working_directory" ++ [("working_directory", wdValue)]

/-- A part of a generateContent request (`{ text: ... }`). -/
structure GenPart where
  text : String
deriving DecidableEq

/-- A content element of a generateContent request
(`{ parts: [...], role: ... }`). -/
structure GenContent where
  parts : List GenPart
  role : String
deriving DecidableEq

/-- The request the loop sends to the completion service after a turn
(git.ts lines 276-284): its contents hold only the initial prompt; the
turn's `toolOutput`, though in scope, does not appear in it. -/
def nextLoopRequest (initialPrompt : String) (_toolOutput : String) : List GenContent :=
  [⟨[⟨initialPrompt⟩], "user"⟩]

/-- The fixed dry-run placeholder (git.ts line 247). -/
def dryRunOutput : String := "Dry run mode, command not executed."

/-- One turn's execution step (git.ts lines 244-263): in dry-run mode the
executor is skipped and the placeholder substituted; otherwise the executor
runs against the file system.  Returns the new file system, the turn's
`toolOutput`, and whether the operation server was invoked. -/
def dispatchToolCall (execute : FunctionCall → FileSystem → FileSystem × String)
    (dryRun : Bool) (fs : FileSystem) (call : FunctionCall) :
    FileSystem × String × Bool :=
  if dryRun then (fs, dryRunOutput, false)
  else
    let r := execute call fs
    (r.1, r.2, true)

/-- The operation actually reached through executeTool in the non-dry branch,
dispatched by tool name to the GftsServer method of the same name.  Tools
whose effect lies outside the modelled file system (git commands, listings)
leave it unchanged. -/
def executeToolModel (wd : FsPath) (call : FunctionCall) (fs : FileSystem) :
    FileSystem × String :=
  if call.name = "write_file" then
    GftsServer.writeFile wd fs ((getArg call.args "path").getD "")
      ((getArg call.args "content").getD "")
  else if call.name = "append_file" then
    GftsServer.appendFile wd fs ((getArg call.args "path").getD "")
      ((getArg call.args "content").getD "")
  else if call.name = "move_file" then
    GftsServer.moveFile wd fs ((getArg call.args "source").getD "")
      ((getArg call.args "destination").getD "")
  else if call.name = "delete_file" then
    GftsServer.deleteFile wd fs ((getArg call.args "path").getD "")
  else if call.name = "create_directory" then
    GftsServer.createDirectory wd fs ((getArg call.args "path").getD "")
  else if call.name = "delete_directory" then
    GftsServer.deleteDirectory wd fs ((getArg call.args "path").getD "")
  else if call.name = "read_file" then
    (fs, GftsServer.readFile wd fs ((getArg call.args "path").getD ""))
  else if call.name = "get_current_directory" then
    (fs, renderAbs wd)
  else
    (fs, "")

/-- The while loop of git.ts lines 228-287, run with `fuel` as the number of
loop-body iterations still allowed: `resp i` is the response inspected at the
top of iteration `i` (response 0 comes from the initial generateContent
call).  Returns the final file system and `some i` when the loop exited
normally at iteration `i` (the response carried no function call), or `none`
when the fuel ran out with the loop still going — the source loop itself has
no turn cap. -/
def runLoopAux (resp : Nat → ModelResponse)
    (execute : FunctionCall → FileSystem → FileSystem × String)
    (dryRun : Bool) : Nat → Nat → FileSystem → FileSystem × Option Nat
  | 0, i, fs =>
    match (resp i).functionCall with
    | none => (fs, some i)
    | some _ => (fs, none)
  | fuel + 1, i, fs =>
    match (resp i).functionCall with
    | none => (fs, some i)
    | some call =>
      let step := dispatchToolCall execute dryRun fs call
      runLoopAux resp execute dryRun fuel (i + 1) step.1

/-! ### MCPClient.callTool

The first revision of src/app/src/mcp/client.ts (lines 24-148) interprets an
instruction string in three stages: a JSON `{tool, parameters}` form (the
tool name checked against the catalogue), a natural-language fallback
(tool-name phrases and regex patterns), and finally a shell fallback that
hands the raw instruction to `execSync`.  JSON.parse itself is outside the
model: an instruction is given together with its parse outcome.  The regex
matcher is an abstract engine parameter; every theorem below only touches
inputs on which the regex branches are unreachable or their outcome does
not matter. -/

/-- The tool catalogue of getToolDefinitions
(src/app/src/tools/declarations.ts), in declaration order. -/
def toolNames : List String :=
  ["run_git_command", "list_files", "read_file", "write_file", "move_file",
   "delete_file", "create_directory", "delete_directory",
   "list_directory_tree", "read_directory_files", "get_current_directory"]

/-- The outcome of `JSON.parse(instruction)` as callTool uses it: a parsed
object with truthy `tool` and `parameters` fields, or anything else
(parse failure or missing fields), which the code treats as null. -/
inductive ParsedInstruction
  | jsonTool (tool : String) (params : List (String × String))
  | plain
deriving DecidableEq

/-- An abstract regex-capture engine standing for `instruction.match(...)` on
callTool's literal patterns: given the pattern source and the input, the
capture groups of a match, if any. -/
abbrev RegexEngine := String → String → Option (List String)

/-- The effect callTool ends in. -/
inductive CallOutcome
  | unknownTool (tool : String)
  | dryRunSimulated (tool : String)
  | dryRunGit
  | dryRunShell
  | gitCommand (cmd : String)
  | serverOp (op : String) (args : List String)
  | currentDirectory
  | shellExec (cmd : String)
deriving DecidableEq

/-- ASCII lowering of one character (the fragment of JavaScript's
`toLowerCase` exercised by the inputs considered here). -/
def lowerChar (c : Char) : Char :=
  if 'A' ≤ c ∧ c ≤ 'Z' then Char.ofNat (c.toNat + 32) else c

/-- `instruction.toLowerCase()` (client.ts line 81), ASCII fragment. -/
def toLowerStr (s : String) : String :=
  String.mk (s.data.map lowerChar)

/-- Whether `sub` occurs as a contiguous run inside `l` (helper for
`strIncludes`). -/
def containsSub (sub : List Char) : List Char → Bool
  | [] => sub.isPrefixOf []
  | c :: t => sub.isPrefixOf (c :: t) || containsSub sub t

/-- JavaScript's `String.prototype.includes`. -/
def strIncludes (s sub : String) : Bool :=
  containsSub sub.data s.data

/-- `tool.name.replaceAll("_", " ")` (client.ts line 93). -/
def underscoresToSpaces (s : String) : String :=
  String.mk (s.data.map (fun c => if c = '_' then ' ' else c))

/-- A character the regex class `\s` matches (ASCII fragment). -/
def isJsSpace (c : Char) : Bool :=
  c = ' ' || c = '\t' || c = '\n' || c = '\r' || c = '\x0b' || c = '\x0c'

/-- The test `/^git\s/i.test(normalized)` (client.ts line 83), applied to the
already-lowercased string. -/
def startsWithGitSpace (s : String) : Bool :=
  match s.data with
  | 'g' :: 'i' :: 't' :: c :: _ => isJsSpace c
  | _ => false

/-- `instruction.replace(/^git\s/i, "")` (client.ts line 87). -/
def stripGitSpace (s : String) : String :=
  match s.data with
  | g :: i :: t :: c :: rest =>
    if lowerChar g = 'g' ∧ lowerChar i = 'i' ∧ lowerChar t = 't' ∧ isJsSpace c then
      String.mk rest
    else s
  | _ => s

/-- Extracts `parsed.parameters.key` for the stage-1 switch (a missing
property, `undefined` in JavaScript, is modelled as the empty string). -/
def jsonParam (params : List (String × String)) (key : String) : String :=
  (getArg params key).getD ""

/-- The stage-1 `switch (parsed.tool)` (client.ts lines 44-77): each case
invokes the matching GftsServer method; a catalogue tool with no case —
`read_file` — lets control fall out of the switch into the later stages. -/
def stage1Switch (tool : String) (params : List (String × String)) : Option CallOutcome :=
  if tool = "run_git_command" then
    some (CallOutcome.gitCommand (jsonParam params "command"))
  else if tool = "write_file" then
    some (CallOutcome.serverOp "write_file" [jsonParam params "path", jsonParam params "content"])
  else if tool = "append_file" then
    some (CallOutcome.serverOp "append_file" [jsonParam params "path", jsonParam params "content"])
  else if tool = "move_file" then
    some (CallOutcome.serverOp "move_file"
      [jsonParam params "source", jsonParam params "destination"])
  else if tool = "delete_file" then
    some (CallOutcome.serverOp "delete_file" [jsonParam params "path"])
  else if tool = "create_directory" then
    some (CallOutcome.serverOp "create_directory" [jsonParam params "path"])
  else if tool = "delete_directory" then
    some (CallOutcome.serverOp "delete_directory" [jsonParam params "path"])
  else if tool = "list_files" then
    some (CallOutcome.serverOp "list_files" [jsonParam params "path"])
  else if tool = "list_directory_tree" then
    some (CallOutcome.serverOp "list_directory_tree" [jsonParam params "path"])
  else if tool = "read_directory_files" then
    some (CallOutcome.serverOp "read_directory_files" [jsonParam params "path"])
  else if tool = "get_current_directory" then
    some CallOutcome.currentDirectory
  else none

/-- The literal pattern sources of the stage-2 regex mapping
(client.ts lines 97-137). -/
def writeFilePattern : String :=
  "write\\s+(.+?)\\s+with\\s+content\\s+[\"']([\\s\\S]+)[\"']"

/-- Pattern for the append_file stage-2 case. -/
def appendFilePattern : String :=
  "append\\s+to\\s+(.+?)\\s+content\\s+[\"']([\\s\\S]+)[\"']"

/-- Pattern for the move_file stage-2 case. -/
def moveFilePattern : String := "move\\s+(.+?)\\s+to\\s+(.+)"

/-- Pattern for the delete_file stage-2 case. -/
def deleteFilePattern : String := "delete\\s+file\\s+(.+)"

/-- Pattern for the create_directory stage-2 case. -/
def createDirectoryPattern : String := "create\\s+directory\\s+(.+)"

/-- Pattern for the delete_directory stage-2 case. -/
def deleteDirectoryPattern : String := "delete\\s+directory\\s+(.+)"

/-- Pattern for the list_files stage-2 case. -/
def listFilesPattern : String := "list\\s+files\\s+in\\s+(.+)"

/-- The per-tool regex cases of the stage-2 switch (client.ts lines 97-137):
a failed match breaks out of the switch, continuing the tool loop. -/
def stage2Case (re : RegexEngine) (instruction toolName : String) : Option CallOutcome :=
  if toolName = "write_file" then
    match re writeFilePattern instruction with
    | some [p, c] => some (CallOutcome.serverOp "write_file" [p, c])
    | _ => none
  else if toolName = "append_file" then
    match re appendFilePattern instruction with
    | some [p, c] => some (CallOutcome.serverOp "append_file" [p, c])
    | _ => none
  else if toolName = "move_file" then
    match re moveFilePattern instruction with
    | some [s, d] => some (CallOutcome.serverOp "move_file" [s, d])
    | _ => none
  else if toolName = "delete_file" then
    match re deleteFilePattern instruction with
    | some [p] => some (CallOutcome.serverOp "delete_file" [p])
    | _ => none
  else if toolName = "create_directory" then
    match re createDirectoryPattern instruction with
    | some [p] => some (CallOutcome.serverOp "create_directory" [p])
    | _ => none
  else if toolName = "delete_directory" then
    match re deleteDirectoryPattern instruction with
    | some [p] => some (CallOutcome.serverOp "delete_directory" [p])
    | _ => none
  else if toolName = "list_files" then
    match re listFilesPattern instruction with
    | some [p] => some (CallOutcome.serverOp "list_files" [p])
    | _ => none
  else none

/-- The stage-2 `for (const tool of tools)` loop (client.ts lines 92-139):
when the lowercased instruction contains a tool's name with underscores as
spaces, a dry run returns the simulated message, otherwise the tool's regex
case runs; with no match the loop moves on. -/
def stage2Loop (re : RegexEngine) (instruction normalized : String) (dryRun : Bool) :
    List String → Option CallOutcome
  | [] => none
  | t :: ts =>
    if strIncludes normalized (underscoresToSpaces t) then
      if dryRun then some (CallOutcome.dryRunSimulated t)
      else
        match stage2Case re instruction t with
        | some out => some out
        | none => stage2Loop re instruction normalized dryRun ts
    else stage2Loop re instruction normalized dryRun ts

/-- Stages 2 and 3 of callTool (client.ts lines 80-144): the git-prefix
fallback, the tool-phrase loop, and finally `execSync(instruction)` on the
raw instruction string. -/
def callToolStages23 (re : RegexEngine) (instruction : String) (dryRun : Bool) :
    CallOutcome :=
  let normalized := toLowerStr instruction
  if startsWithGitSpace normalized then
    if dryRun then CallOutcome.dryRunGit
    else CallOutcome.gitCommand (stripGitSpace instruction)
  else
    match stage2Loop re instruction normalized dryRun toolNames with
    | some out => out
    | none =>
      if dryRun then CallOutcome.dryRunShell
      else CallOutcome.shellExec instruction

/-- MCPClient.callTool (src/app/src/mcp/client.ts lines 24-148): stage 1
checks a JSON tool call against the catalogue — an unknown name returns the
unknown-tool message and nothing executes; a known name runs the switch; any
other instruction goes through stages 2 and 3. -/
def callTool (re : RegexEngine) (parsed : ParsedInstruction) (instruction : String)
    (dryRun : Bool) : CallOutcome :=
  match parsed with
  | ParsedInstruction.jsonTool tool params =>
    if (toolNames.find? (fun t => t == tool)).isSome then
      if dryRun then CallOutcome.dryRunSimulated tool
      else
        match stage1Switch tool params with
        | some out => out
        | none => callToolStages23 re instruction dryRun
    else CallOutcome.unknownTool tool
  | ParsedInstruction.plain => callToolStages23 re instruction dryRun

/-- Every component of `rest`, extended from `base`, is a directory: the
parent-chain-exists postcondition of a recursive mkdir. -/
def prefixChainOk (fs : FileSystem) (base : FsPath) : List String → Bool
  | [] => true
  | c :: cs => isDirB fs (base ++ [c]) && prefixChainOk fs (base ++ [c]) cs

/-- Demonstration state for the move-file analysis: WorkingRoot `/tmp/proj`
holds `notes.txt`, and a sibling directory `/tmp/proj2` exists beside it. -/
def demoFsMove : FileSystem :=
  [(["tmp"], FsEntry.dir), (["tmp", "proj"], FsEntry.dir),
   (["tmp", "proj2"], FsEntry.dir), (["tmp", "proj", "notes.txt"], FsEntry.file "hello")]

/-! ### Supporting lemmas -/

theorem fsLookup_fsRemove_ne (fs : FileSystem) (p q : FsPath) (h : q ≠ p) :
    fsLookup (fsRemove fs p) q = fsLookup fs q := by
  induction fs with
  | nil => rfl
  | cons kv rest ih =>
    obtain ⟨k, e⟩ := kv
    have hpq : ¬(p = q) := fun hx => h hx.symm
    by_cases hk : k = p
    · simp [fsRemove, fsLookup, hk, hpq, ih]
    · by_cases hkq : k = q
      · simp [fsRemove, fsLookup, hk, hkq, hpq, h]
      · simp [fsRemove, fsLookup, hk, hkq, ih]

theorem fsLookup_fsSet_self (fs : FileSystem) (p : FsPath) (e : FsEntry) :
    fsLookup (fsSet fs p e) p = some e := by
  simp [fsSet, fsLookup]

theorem fsLookup_fsSet_ne (fs : FileSystem) (p q : FsPath) (e : FsEntry) (h : q ≠ p) :
    fsLookup (fsSet fs p e) q = fsLookup fs q := by
  have hpq : ¬(p = q) := fun hx => h hx.symm
  simp [fsSet, fsLookup, hpq, fsLookup_fsRemove_ne fs p q h]

theorem mkdirRec_lookup_longer (rest : List String) :
    ∀ (fs fs1 : FileSystem) (base q : FsPath),
      mkdirRec fs base rest = Except.ok fs1 →
      base.length + rest.length < q.length →
      fsLookup fs1 q = fsLookup fs q := by
  induction rest with
  | nil =>
    intro fs fs1 base q hmk _
    simp [mkdirRec] at hmk
    subst hmk
    rfl
  | cons c cs ih =>
    intro fs fs1 base q hmk hlen
    cases hl : fsLookup fs (base ++ [c]) with
    | none =>
      simp only [mkdirRec, hl] at hmk
      have h1 := ih _ _ _ q hmk (by simp at hlen ⊢; omega)
      have hne : q ≠ base ++ [c] := by
        intro heq
        have hq : q.length = base.length + 1 := by rw [heq]; simp
        simp at hlen
        omega
      rw [h1, fsLookup_fsSet_ne _ _ _ _ hne]
    | some e =>
      cases e with
      | file s => simp [mkdirRec, hl] at hmk
      | dir =>
        simp only [mkdirRec, hl] at hmk
        exact ih _ _ _ q hmk (by simp at hlen ⊢; omega)

theorem mkdirRec_preserves (rest : List String) :
    ∀ (fs fs1 : FileSystem) (base q : FsPath) (e : FsEntry),
      fsLookup fs q = some e →
      mkdirRec fs base rest = Except.ok fs1 →
      fsLookup fs1 q = some e := by
  induction rest with
  | nil =>
    intro fs fs1 base q e hq hmk
    simp [mkdirRec] at hmk
    subst hmk
    exact hq
  | cons c cs ih =>
    intro fs fs1 base q e hq hmk
    cases hl : fsLookup fs (base ++ [c]) with
    | none =>
      simp only [mkdirRec, hl] at hmk
      have hne : q ≠ base ++ [c] := by
        intro heq
        rw [heq, hl] at hq
        exact Option.noConfusion hq
      exact ih _ _ _ q e (by rw [fsLookup_fsSet_ne _ _ _ _ hne]; exact hq) hmk
    | some e2 =>
      cases e2 with
      | file s => simp [mkdirRec, hl] at hmk
      | dir =>
        simp only [mkdirRec, hl] at hmk
        exact ih _ _ _ q e hq hmk

theorem mkdirRec_creates (rest : List String) :
    ∀ (fs fs1 : FileSystem) (base : FsPath),
      mkdirRec fs base rest = Except.ok fs1 →
      isDirB fs base = true →
      prefixChainOk fs1 base rest = true ∧ isDirB fs1 (base ++ rest) = true := by
  induction rest with
  | nil =>
    intro fs fs1 base hmk hb
    simp [mkdirRec] at hmk
    subst hmk
    simpa [prefixChainOk] using hb
  | cons c cs ih =>
    intro fs fs1 base hmk hb
    cases hl : fsLookup fs (base ++ [c]) with
    | none =>
      simp only [mkdirRec, hl] at hmk
      have hstep : isDirB (fsSet fs (base ++ [c]) FsEntry.dir) (base ++ [c]) = true := by
        simp [isDirB, fsLookup_fsSet_self]
      obtain ⟨hchain, hend⟩ := ih _ _ _ hmk hstep
      have hdir1 : isDirB fs1 (base ++ [c]) = true := by
        have hp := mkdirRec_preserves cs _ _ _ _ _ (fsLookup_fsSet_self fs (base ++ [c]) FsEntry.dir) hmk
        simp [isDirB, hp]
      refine ⟨by simp [prefixChainOk, hdir1, hchain], ?_⟩
      have hx : base ++ c :: cs = (base ++ [c]) ++ cs := by simp
      rw [hx]
      exact hend
    | some e =>
      cases e with
      | file s => simp [mkdirRec, hl] at hmk
      | dir =>
        simp only [mkdirRec, hl] at hmk
        have hstep : isDirB fs (base ++ [c]) = true := by simp [isDirB, hl]
        obtain ⟨hchain, hend⟩ := ih _ _ _ hmk hstep
        have hdir1 : isDirB fs1 (base ++ [c]) = true := by
          have hp := mkdirRec_preserves cs _ _ _ _ _ hl hmk
          simp [isDirB, hp]
        refine ⟨by simp [prefixChainOk, hdir1, hchain], ?_⟩
        have hx : base ++ c :: cs = (base ++ [c]) ++ cs := by simp
        rw [hx]
        exact hend

theorem prefixChainOk_fsSet_longer (rest : List String) :
    ∀ (fs : FileSystem) (base q : FsPath) (e : FsEntry),
      base.length + rest.length < q.length →
      prefixChainOk (fsSet fs q e) base rest = prefixChainOk fs base rest := by
  induction rest with
  | nil => intro fs base q e _; rfl
  | cons c cs ih =>
    intro fs base q e hlen
    have hne : base ++ [c] ≠ q := by
      intro heq
      rw [← heq] at hlen
      simp at hlen
    have hd : isDirB (fsSet fs q e) (base ++ [c]) = isDirB fs (base ++ [c]) := by
      simp [isDirB, fsLookup_fsSet_ne _ _ _ _ hne]
    have hrec := ih fs (base ++ [c]) q e (by simp at hlen ⊢; omega)
    simp [prefixChainOk, hd, hrec]

theorem renderChars_append (a b : FsPath) :
    renderChars (a ++ b) = renderChars a ++ renderChars b := by
  induction a with
  | nil => rfl
  | cons c cs ih => simp [renderChars, ih]

theorem strStartsWith_renderAbs_of_within (wd sp : FsPath)
    (hin : specWithinRoot wd sp = true) :
    strStartsWith (renderAbs sp) (renderAbs wd) = true := by
  have hpre : wd <+: sp := by
    have h2 := hin
    rwa [specWithinRoot, List.isPrefixOf_iff_prefix] at h2
  obtain ⟨rest, hrest⟩ := hpre
  rw [strStartsWith, List.isPrefixOf_iff_prefix]
  cases wd with
  | nil =>
    cases sp with
    | nil => simp [renderAbs]
    | cons c cs =>
      show ("/" : String).data <+: (renderAbs (c :: cs)).data
      have h3 : (renderAbs (c :: cs)).data = '/' :: (c.data ++ renderChars cs) := by
        simp [renderAbs, renderChars]
      rw [h3]
      exact ⟨c.data ++ renderChars cs, rfl⟩
  | cons w ws =>
    have hsp : sp = (w :: ws) ++ rest := hrest.symm
    subst hsp
    have h1 : (renderAbs (w :: ws)).data = renderChars (w :: ws) := by simp [renderAbs]
    have h2 : (renderAbs ((w :: ws) ++ rest)).data
        = renderChars (w :: ws) ++ renderChars rest := by
      rw [← renderChars_append]
      simp [renderAbs]
    rw [h1, h2]
    exact ⟨renderChars rest, rfl⟩

theorem getSafePath_ok_of_within (wd : FsPath) (p : String) (sp : FsPath)
    (hres : resolvePath wd p = sp) (hin : specWithinRoot wd sp = true) :
    getSafePath wd p = Except.ok sp := by
  have hpre := strStartsWith_renderAbs_of_within wd sp hin
  simp [getSafePath, hres, hpre]

theorem writeFile_ok (wd sp : FsPath) (fs : FileSystem) (p c : String)
    (hres : resolvePath wd p = sp) (hin : specWithinRoot wd sp = true)
    (hne : sp ≠ [])
    (hnotdir : fsLookup fs sp ≠ some FsEntry.dir)
    (hmk : exceptIsOk (mkdirRecursive fs sp.dropLast) = true) :
    ∃ fs1, mkdirRecursive fs sp.dropLast = Except.ok fs1 ∧
      GftsServer.writeFile wd fs p c =
        (fsSet fs1 sp (FsEntry.file c), "Successfully wrote to '" ++ p ++ "'.") := by
  cases hmc : mkdirRecursive fs sp.dropLast with
  | error e => rw [hmc] at hmk; simp [exceptIsOk] at hmk
  | ok fs1 =>
    refine ⟨fs1, rfl, ?_⟩
    have hsafe := getSafePath_ok_of_within wd p sp hres hin
    have hlook : fsLookup fs1 sp = fsLookup fs sp := by
      apply mkdirRec_lookup_longer sp.dropLast fs fs1 [] sp hmc
      have hpos : 0 < sp.length := List.length_pos.mpr hne
      simp [List.length_dropLast]
      omega
    have htarget : isDirB fs1 sp = false := by
      cases hfs : fsLookup fs sp with
      | none => simp [isDirB, hlook, hfs, hne]
      | some e =>
        cases e with
        | file s => simp [isDirB, hlook, hfs, hne]
        | dir => exact absurd hfs hnotdir
    have hparent : isDirB fs1 sp.dropLast = true := by
      have hd := mkdirRec_creates sp.dropLast fs fs1 [] hmc (by simp [isDirB])
      simpa using hd.2
    simp [GftsServer.writeFile, hsafe, hmc, writeFileSync, htarget, hparent]

theorem appendFile_ok (wd sp : FsPath) (fs : FileSystem) (p c : String)
    (hres : resolvePath wd p = sp) (hin : specWithinRoot wd sp = true)
    (hne : sp ≠ [])
    (hnotdir : fsLookup fs sp ≠ some FsEntry.dir)
    (hmk : exceptIsOk (mkdirRecursive fs sp.dropLast) = true) :
    ∃ fs1 d, mkdirRecursive fs sp.dropLast = Except.ok fs1 ∧
      GftsServer.appendFile wd fs p c =
        (fsSet fs1 sp (FsEntry.file d), "Successfully appended to '" ++ p ++ "'.") := by
  cases hmc : mkdirRecursive fs sp.dropLast with
  | error e => rw [hmc] at hmk; simp [exceptIsOk] at hmk
  | ok fs1 =>
    have hsafe := getSafePath_ok_of_within wd p sp hres hin
    have hlook : fsLookup fs1 sp = fsLookup fs sp := by
      apply mkdirRec_lookup_longer sp.dropLast fs fs1 [] sp hmc
      have hpos : 0 < sp.length := List.length_pos.mpr hne
      simp [List.length_dropLast]
      omega
    have htarget : isDirB fs1 sp = false := by
      cases hfs : fsLookup fs sp with
      | none => simp [isDirB, hlook, hfs, hne]
      | some e =>
        cases e with
        | file s => simp [isDirB, hlook, hfs, hne]
        | dir => exact absurd hfs hnotdir
    have hparent : isDirB fs1 sp.dropLast = true := by
      have hd := mkdirRec_creates sp.dropLast fs fs1 [] hmc (by simp [isDirB])
      simpa using hd.2
    cases hfs : fsLookup fs sp with
    | none =>
      refine ⟨fs1, c, rfl, ?_⟩
      simp [GftsServer.appendFile, hsafe, hmc, appendFileSync, htarget, hparent, hlook, hfs]
    | some e =>
      cases e with
      | dir => exact absurd hfs hnotdir
      | file old =>
        refine ⟨fs1, old ++ c, rfl, ?_⟩
        simp [GftsServer.appendFile, hsafe, hmc, appendFileSync, htarget, hparent, hlook, hfs]

theorem runLoopAux_no_exit (resp : Nat → ModelResponse)
    (execute : FunctionCall → FileSystem → FileSystem × String) (dryRun : Bool)
    (hall : ∀ j, ((resp j).functionCall).isSome = true) :
    ∀ (fuel i : Nat) (fs : FileSystem),
      (runLoopAux resp execute dryRun fuel i fs).2 = none := by
  intro fuel
  induction fuel with
  | zero =>
    intro i fs
    cases hc : (resp i).functionCall with
    | none => have hj := hall i; rw [hc] at hj; simp at hj
    | some call => simp only [runLoopAux, hc]
  | succ m ih =>
    intro i fs
    cases hc : (resp i).functionCall with
    | none => have hj := hall i; rw [hc] at hj; simp at hj
    | some call =>
      simp only [runLoopAux, hc]
      exact ih (i + 1) _

theorem runLoopAux_exit_of_eventual_none (resp : Nat → ModelResponse)
    (execute : FunctionCall → FileSystem → FileSystem × String) (dryRun : Bool) :
    ∀ (fuel i : Nat) (fs : FileSystem),
      (∃ j, i ≤ j ∧ j ≤ i + fuel ∧ (resp j).functionCall = none) →
      ((runLoopAux resp execute dryRun fuel i fs).2).isSome = true := by
  intro fuel
  induction fuel with
  | zero =>
    intro i fs hex
    obtain ⟨j, hij, hji, hnone⟩ := hex
    have hji2 : j = i := by omega
    subst hji2
    simp only [runLoopAux, hnone, Option.isSome_some]
  | succ m ih =>
    intro i fs hex
    obtain ⟨j, hij, hji, hnone⟩ := hex
    cases hc : (resp i).functionCall with
    | none => simp only [runLoopAux, hc, Option.isSome_some]
    | some call =>
      have hij2 : i + 1 ≤ j := by
        rcases Nat.lt_or_ge i j with hx | hx
        · omega
        · have hji3 : j = i := by omega
          subst hji3
          rw [hc] at hnone
          exact Option.noConfusion hnone
      simp only [runLoopAux, hc]
      exact ih (i + 1) _ ⟨j, hij2, by omega, hnone⟩

theorem runLoopAux_dryRun_frame (resp : Nat → ModelResponse)
    (execute : FunctionCall → FileSystem → FileSystem × String) :
    ∀ (fuel i : Nat) (fs : FileSystem),
      (runLoopAux resp execute true fuel i fs).1 = fs := by
  intro fuel
  induction fuel with
  | zero =>
    intro i fs
    cases hc : (resp i).functionCall <;> simp only [runLoopAux, hc]
  | succ m ih =>
    intro i fs
    cases hc : (resp i).functionCall with
    | none => simp only [runLoopAux, hc]
    | some call =>
      simp only [runLoopAux, hc, dispatchToolCall, if_true]
      exact ih (i + 1) fs

theorem getArg_removeKey_append (l : List (String × String)) (k v : String) :
    getArg (removeKey l k ++ [(k, v)]) k = some v := by
  induction l with
  | nil => simp [removeKey, getArg, List.find?]
  | cons kv rest ih =>
    by_cases h : kv.1 = k
    · simp only [removeKey, if_pos h]
      exact ih
    · simp only [removeKey, if_neg h, List.cons_append]
      have hb : (kv.1 == k) = false := by
        simp [h]
      simp only [getArg, List.find?, hb]
      exact ih

theorem removeKey_append (a b : List (String × String)) (k : String) :
    removeKey (a ++ b) k = removeKey a k ++ removeKey b k := by
  induction a with
  | nil => rfl
  | cons kv rest ih =>
    by_cases h : kv.1 = k <;> simp [removeKey, h, ih]

theorem removeKey_idem (l : List (String × String)) (k : String) :
    removeKey (removeKey l k) k = removeKey l k := by
  induction l with
  | nil => rfl
  | cons kv rest ih =>
    by_cases h : kv.1 = k <;> simp [removeKey, h, ih]

theorem executeToolArgs_mkToolArgs (m : List (String × String)) (cwd : String) :
    executeToolArgs (mkToolArgs m cwd) cwd
      = removeKey m "working_directory" ++ [("working_directory", cwd)] := by
  unfold executeToolArgs mkToolArgs
  rw [getArg_removeKey_append]
  simp only [ite_self]
  rw [removeKey_append, removeKey_idem]
  simp [removeKey]

theorem toolNames_find_none (tool : String) (h : tool ∉ toolNames) :
    toolNames.find? (fun t => t == tool) = none := by
  rw [List.find?_eq_none]
  intro x hx
  simp only [beq_iff_eq]
  intro hxeq
  exact h (hxeq ▸ hx)

/-! ### Claim theorems -/

/-- C1: getSafePath is claimed to fail with AccessDenied exactly when the
resolved candidate is not WorkingRoot or a descendant of it, and in
particular to reject prefix-sharing siblings such as `/tmp/proj2` under
WorkingRoot `/tmp/proj`.  The code's check is a string-prefix test on the
resolved path, so the sibling `../proj2` resolves to `/tmp/proj2` and is
accepted although it lies outside WorkingRoot; a candidate such as
`../etc/passwd` is still rejected. -/
theorem c1_getSafePath_prefix_sibling_accepted :
    getSafePath ["tmp", "proj"] "../proj2" = Except.ok ["tmp", "proj2"] ∧
    specWithinRoot ["tmp", "proj"] ["tmp", "proj2"] = false ∧
    exceptIsOk (getSafePath ["tmp", "proj"] "../etc/passwd") = false :=
  ⟨rfl, by decide, by decide⟩

/-- C2: moveFile is claimed never to rename a file to a destination outside
WorkingRoot.  With WorkingRoot `/tmp/proj` and the sibling directory
`/tmp/proj2` present, moving `notes.txt` to `../proj2/notes.txt` succeeds:
the destination's parent `../proj2` passes getSafePath (string-prefix bug)
and the file ends up at `/tmp/proj2/notes.txt`, outside WorkingRoot, no
longer present inside it. -/
theorem c2_moveFile_escapes_working_root :
    (GftsServer.moveFile ["tmp", "proj"] demoFsMove "notes.txt" "../proj2/notes.txt").2
      = "Successfully moved 'notes.txt' to '../proj2/notes.txt'." ∧
    fsLookup (GftsServer.moveFile ["tmp", "proj"] demoFsMove "notes.txt" "../proj2/notes.txt").1
      ["tmp", "proj2", "notes.txt"] = some (FsEntry.file "hello") ∧
    fsLookup (GftsServer.moveFile ["tmp", "proj"] demoFsMove "notes.txt" "../proj2/notes.txt").1
      ["tmp", "proj", "notes.txt"] = none ∧
    specWithinRoot ["tmp", "proj"] ["tmp", "proj2", "notes.txt"] = false :=
  ⟨by decide, by decide, by decide, by decide⟩

/-- C3: the working_directory argument reaching the operation server equals
the session's cwd no matter what the model supplied: the dispatch loop's
spread overwrites it and executeTool's `||` default then keeps that value;
two runs whose model arguments differ only in working_directory produce
identical server arguments. -/
theorem c3_working_directory_always_injected
    (modelArgs modelArgs2 : List (String × String)) (cwd : String)
    (hagree : removeKey modelArgs "working_directory"
        = removeKey modelArgs2 "working_directory") :
    getArg (executeToolArgs (mkToolArgs modelArgs cwd) cwd) "working_directory"
      = some cwd ∧
    executeToolArgs (mkToolArgs modelArgs cwd) cwd
      = executeToolArgs (mkToolArgs modelArgs2 cwd) cwd := by
  constructor
  · rw [executeToolArgs_mkToolArgs]
    exact getArg_removeKey_append modelArgs "working_directory" cwd
  · rw [executeToolArgs_mkToolArgs, executeToolArgs_mkToolArgs, hagree]

/-- Witness for C3: a model-supplied working_directory of `/evil` is
overridden with `/tmp/proj`, and the run equals one where the model supplied
none at all. -/
theorem c3_working_directory_always_injected_witness :
    removeKey [("working_directory", "/evil"), ("path", "a.txt")] "working_directory"
      = removeKey [("path", "a.txt")] "working_directory" ∧
    getArg (executeToolArgs
        (mkToolArgs [("working_directory", "/evil"), ("path", "a.txt")] "/tmp/proj")
        "/tmp/proj") "working_directory" = some "/tmp/proj" ∧
    executeToolArgs
        (mkToolArgs [("working_directory", "/evil"), ("path", "a.txt")] "/tmp/proj")
        "/tmp/proj"
      = executeToolArgs (mkToolArgs [("path", "a.txt")] "/tmp/proj") "/tmp/proj" :=
  ⟨by decide,
    (c3_working_directory_always_injected
      [("working_directory", "/evil"), ("path", "a.txt")] [("path", "a.txt")]
      "/tmp/proj" (by decide)).1,
    (c3_working_directory_always_injected
      [("working_directory", "/evil"), ("path", "a.txt")] [("path", "a.txt")]
      "/tmp/proj" (by decide)).2⟩

/-- C4: the result of an operation is claimed to become part of the next
completion-service request.  The request built at git.ts lines 276-284
contains only the initial prompt: it is the same for any two tool outputs,
so the next request does not depend on the operation's outcome and the
result is never fed back to the model. -/
theorem c4_next_request_independent_of_result (prompt out1 out2 : String) :
    nextLoopRequest prompt out1 = nextLoopRequest prompt out2 ∧
    nextLoopRequest prompt out1 = [⟨[⟨prompt⟩], "user"⟩] :=
  ⟨rfl, rfl⟩

/-- C5 counterexample: the dispatch loop has no maximum turn count.  Against
a completion service that answers every request with a function call, no
fuel bound makes the while loop of git.ts lines 228-287 exit: the claim that
the loop stops after an implementation-chosen maximum turn count fails. -/
theorem c5_no_turn_cap_counterexample :
    ¬ ∃ fuel n : Nat,
      (runLoopAux
        (fun _ => ModelResponse.mk
          (some (FunctionCall.mk "run_git_command" [("command", "status")])) "")
        (executeToolModel ["tmp", "proj"]) false fuel 0 []).2 = some n := by
  rintro ⟨fuel, n, h⟩
  rw [runLoopAux_no_exit
    (fun _ => ModelResponse.mk
      (some (FunctionCall.mk "run_git_command" [("command", "status")])) "")
    (executeToolModel ["tmp", "proj"]) false (fun j => rfl) fuel 0 []] at h
  exact Option.noConfusion h

/-- C5 (amended): the loop terminates exactly when the completion service
eventually returns a response without a function call; when response `k`
carries none, the loop exits within `k` iterations, for any executor,
dry-run flag and starting state.  No turn cap exists in the code. -/
theorem c5_terminates_on_no_call_response (resp : Nat → ModelResponse)
    (execute : FunctionCall → FileSystem → FileSystem × String) (dryRun : Bool)
    (fs : FileSystem) (k : Nat) (hk : (resp k).functionCall = none) :
    ((runLoopAux resp execute dryRun k 0 fs).2).isSome = true :=
  runLoopAux_exit_of_eventual_none resp execute dryRun k 0 fs
    ⟨k, by omega, by omega, hk⟩

/-- Witness for C5 (amended): a service whose first response has no function
call ends the loop at once. -/
theorem c5_terminates_on_no_call_response_witness :
    ((fun _ : Nat => ModelResponse.mk none "done") 0).functionCall = none ∧
    ((runLoopAux (fun _ : Nat => ModelResponse.mk none "done")
        (executeToolModel ["tmp", "proj"]) false 0 0 []).2).isSome = true :=
  ⟨rfl, c5_terminates_on_no_call_response (fun _ => ModelResponse.mk none "done")
    (executeToolModel ["tmp", "proj"]) false [] 0 rfl⟩

/-- C6: every operation is wrapped with the 120000 ms timeout, but the
claimed Timeout branch is unreachable: the operation closure is synchronous,
so under Node's single-threaded execution the promise settles with the
operation's own result or exception (clearTimeout cancelling the timer), and
for a never-returning operation it never settles at all — it never rejects
with the timeout error. -/
theorem c6_timeout_branch_never_settles (α : Type) (op : SyncOutcome α) (ms m : Nat) :
    wrapWithTimeout op ms ≠ WrapResult.timedOutAfter m ∧
    wrapWithTimeout (SyncOutcome.divergesForever : SyncOutcome α) DEFAULT_TIMEOUT
      = WrapResult.neverSettles := by
  constructor
  · cases op with
    | completes r => cases r <;> simp [wrapWithTimeout]
    | divergesForever => simp [wrapWithTimeout, timeoutCallbackRuns, timerCleared]
  · rfl

/-- C7 counterexample: an instruction naming no known tool is not rejected —
after the JSON, git-prefix and tool-phrase stages all fail to match, callTool
hands the raw instruction string to execSync as a shell command. -/
theorem c7_shell_fallback_counterexample :
    callTool (fun _ _ => none) ParsedInstruction.plain "frobnicate the widgets" false
      = CallOutcome.shellExec "frobnicate the widgets" := by decide

/-- C7 (amended): a JSON-structured operation request whose tool name is not
in the catalogue fails fast with the unknown-tool error and is never
forwarded to any handler, for every regex engine, parameter list,
instruction text and dry-run flag; free-text instructions, by contrast, fall
through to the shell. -/
theorem c7_unknown_json_tool_rejected (re : RegexEngine) (tool : String)
    (params : List (String × String)) (instruction : String) (dryRun : Bool)
    (h : tool ∉ toolNames) :
    callTool re (ParsedInstruction.jsonTool tool params) instruction dryRun
      = CallOutcome.unknownTool tool := by
  have hfind : toolNames.find? (fun t => t == tool) = none := toolNames_find_none tool h
  simp [callTool, hfind]

/-- Witness for C7 (amended) at the unknown tool name `frobnicate`. -/
theorem c7_unknown_json_tool_rejected_witness :
    "frobnicate" ∉ toolNames ∧
    callTool (fun _ _ => none) (ParsedInstruction.jsonTool "frobnicate" []) "" false
      = CallOutcome.unknownTool "frobnicate" :=
  ⟨by decide,
    c7_unknown_json_tool_rejected (fun _ _ => none) "frobnicate" [] "" false (by decide)⟩

/-- C8 counterexample: the dry-run placeholder is not fed back to the model —
the next completion request contains only the initial prompt, and the
placeholder differs from it. -/
theorem c8_placeholder_not_fed_to_model :
    ((nextLoopRequest "delete notes.txt" dryRunOutput).map
        (fun content => content.parts.map (fun part => part.text)))
      = [["delete notes.txt"]] ∧
    dryRunOutput ≠ "delete notes.txt" :=
  ⟨rfl, by decide⟩

/-- C8 (amended): in a dry-run session the operation server is never invoked
and the file system is unchanged when the loop ends, for every response
stream, fuel, start turn and state; each dry-run turn substitutes the fixed
placeholder as its result with the server-invoked flag false.  (Because of
the dispatch-loop bug of C4, neither the placeholder nor a real result is
included in the next completion request.) -/
theorem c8_dry_run_never_invokes_server (wd : FsPath) (resp : Nat → ModelResponse)
    (fuel i : Nat) (fs : FileSystem) (call : FunctionCall) :
    (runLoopAux resp (executeToolModel wd) true fuel i fs).1 = fs ∧
    dispatchToolCall (executeToolModel wd) true fs call = (fs, dryRunOutput, false) :=
  ⟨runLoopAux_dryRun_frame resp (executeToolModel wd) fuel i fs, rfl⟩

/-- C9: for a path that resolves inside WorkingRoot and is not an existing
directory, with a parent chain free of file conflicts, writeFile succeeds
with the exact success message and a subsequent readFile returns exactly the
written content. -/
theorem c9_write_read_roundtrip (wd sp : FsPath) (fs : FileSystem) (p c : String)
    (hres : resolvePath wd p = sp) (hin : specWithinRoot wd sp = true)
    (hne : sp ≠ [])
    (hnotdir : fsLookup fs sp ≠ some FsEntry.dir)
    (hmk : exceptIsOk (mkdirRecursive fs sp.dropLast) = true) :
    (GftsServer.writeFile wd fs p c).2 = "Successfully wrote to '" ++ p ++ "'." ∧
    GftsServer.readFile wd (GftsServer.writeFile wd fs p c).1 p = c := by
  obtain ⟨fs1, hmc, hw⟩ := writeFile_ok wd sp fs p c hres hin hne hnotdir hmk
  rw [hw]
  refine ⟨rfl, ?_⟩
  have hsafe := getSafePath_ok_of_within wd p sp hres hin
  have hl : fsLookup (fsSet fs1 sp (FsEntry.file c)) sp = some (FsEntry.file c) :=
    fsLookup_fsSet_self fs1 sp (FsEntry.file c)
  simp [GftsServer.readFile, hsafe, existsSyncB, isFileB, readFileSyncE, hl]

/-- Witness for C9: the spec's scenario — WorkingRoot `/tmp/proj`,
write_file("notes.txt", "hello") then read_file("notes.txt"). -/
theorem c9_write_read_roundtrip_witness :
    resolvePath ["tmp", "proj"] "notes.txt" = ["tmp", "proj", "notes.txt"] ∧
    (GftsServer.writeFile ["tmp", "proj"]
        [(["tmp"], FsEntry.dir), (["tmp", "proj"], FsEntry.dir)] "notes.txt" "hello").2
      = "Successfully wrote to '" ++ "notes.txt" ++ "'." ∧
    GftsServer.readFile ["tmp", "proj"]
        (GftsServer.writeFile ["tmp", "proj"]
          [(["tmp"], FsEntry.dir), (["tmp", "proj"], FsEntry.dir)] "notes.txt" "hello").1
        "notes.txt" = "hello" :=
  ⟨by decide,
    (c9_write_read_roundtrip ["tmp", "proj"] ["tmp", "proj", "notes.txt"]
      [(["tmp"], FsEntry.dir), (["tmp", "proj"], FsEntry.dir)] "notes.txt" "hello"
      (by decide) (by decide) (by decide) (by decide) (by decide)).1,
    (c9_write_read_roundtrip ["tmp", "proj"] ["tmp", "proj", "notes.txt"]
      [(["tmp"], FsEntry.dir), (["tmp", "proj"], FsEntry.dir)] "notes.txt" "hello"
      (by decide) (by decide) (by decide) (by decide) (by decide)).2⟩

/-- C10: under the same resolution hypotheses, writeFile and appendFile both
create the missing parent-directory chain first (mkdir recursive) and return
their success messages, and afterwards every component of the parent chain
exists as a directory. -/
theorem c10_write_append_create_parents (wd sp : FsPath) (fs : FileSystem) (p c : String)
    (hres : resolvePath wd p = sp) (hin : specWithinRoot wd sp = true)
    (hne : sp ≠ [])
    (hnotdir : fsLookup fs sp ≠ some FsEntry.dir)
    (hmk : exceptIsOk (mkdirRecursive fs sp.dropLast) = true) :
    ((GftsServer.writeFile wd fs p c).2 = "Successfully wrote to '" ++ p ++ "'." ∧
      prefixChainOk (GftsServer.writeFile wd fs p c).1 [] sp.dropLast = true) ∧
    ((GftsServer.appendFile wd fs p c).2 = "Successfully appended to '" ++ p ++ "'." ∧
      prefixChainOk (GftsServer.appendFile wd fs p c).1 [] sp.dropLast = true) := by
  have hlt : (0 : Nat) + sp.dropLast.length < sp.length := by
    have hpos : 0 < sp.length := List.length_pos.mpr hne
    simp [List.length_dropLast]
    omega
  constructor
  · obtain ⟨fs1, hmc, hw⟩ := writeFile_ok wd sp fs p c hres hin hne hnotdir hmk
    rw [hw]
    refine ⟨rfl, ?_⟩
    have hchain : prefixChainOk fs1 [] sp.dropLast = true :=
      (mkdirRec_creates sp.dropLast fs fs1 [] hmc (by simp [isDirB])).1
    rw [prefixChainOk_fsSet_longer sp.dropLast fs1 [] sp (FsEntry.file c)
      (by simpa using hlt)]
    exact hchain
  · obtain ⟨fs1, d, hmc, hw⟩ := appendFile_ok wd sp fs p c hres hin hne hnotdir hmk
    rw [hw]
    refine ⟨rfl, ?_⟩
    have hchain : prefixChainOk fs1 [] sp.dropLast = true :=
      (mkdirRec_creates sp.dropLast fs fs1 [] hmc (by simp [isDirB])).1
    rw [prefixChainOk_fsSet_longer sp.dropLast fs1 [] sp (FsEntry.file d)
      (by simpa using hlt)]
    exact hchain

/-- Witness for C10: writing `a/b/notes.txt` under `/tmp/proj` creates the
directories `/tmp/proj/a` and `/tmp/proj/a/b`. -/
theorem c10_write_append_create_parents_witness :
    resolvePath ["tmp", "proj"] "a/b/notes.txt" = ["tmp", "proj", "a", "b", "notes.txt"] ∧
    ((GftsServer.writeFile ["tmp", "proj"]
        [(["tmp"], FsEntry.dir), (["tmp", "proj"], FsEntry.dir)] "a/b/notes.txt" "hi").2
      = "Successfully wrote to '" ++ "a/b/notes.txt" ++ "'." ∧
      prefixChainOk (GftsServer.writeFile ["tmp", "proj"]
          [(["tmp"], FsEntry.dir), (["tmp", "proj"], FsEntry.dir)] "a/b/notes.txt" "hi").1
        [] (["tmp", "proj", "a", "b", "notes.txt"] : FsPath).dropLast = true) :=
  ⟨by decide,
    ⟨(c10_write_append_create_parents ["tmp", "proj"]
      ["tmp", "proj", "a", "b", "notes.txt"]
      [(["tmp"], FsEntry.dir), (["tmp", "proj"], FsEntry.dir)] "a/b/notes.txt" "hi"
      (by decide) (by decide) (by decide) (by decide) (by decide)).1.1,
     (c10_write_append_create_parents ["tmp", "proj"]
      ["tmp", "proj", "a", "b", "notes.txt"]
      [(["tmp"], FsEntry.dir), (["tmp", "proj"], FsEntry.dir)] "a/b/notes.txt" "hi"
      (by decide) (by decide) (by decide) (by decide) (by decide)).1.2⟩⟩
